import Mathlib

/-!
Verification of the kkrpc-interop Rust crate (src/interop/rust/src/lib.rs), a
JSON-mode RPC peer.  The definitions below are a shallow embedding of the
message codec of the crate, server dispatch, pending-call table, callback registry
and stdio transport.  JSON values are modelled by an inductive type; the
HashMap and serde_json Map containers are modelled by association lists with
unique-key insert/remove; closures (callbacks, handlers) are modelled by Lean
functions.  Numbers are modelled as integers: the engine never computes with
numeric payloads, it only moves them.
-/

/-- Model of serde_json::Value. -/
inductive JValue : Type where
  | null : JValue
  | bool (b : Bool) : JValue
  | num (n : Int) : JValue
  | str (s : String) : JValue
  | arr (items : List JValue) : JValue
  | obj (fields : List (String × JValue)) : JValue

/-- Association-list lookup, modelling Map/HashMap get (keys are unique). -/
def jlookup {α : Type} : List (String × α) → String → Option α
  | [], _ => none
  | (k, v) :: rest, key => if k = key then some v else jlookup rest key

/-- Association-list insert with overwrite, modelling HashMap::insert /
serde Map insert: an existing binding for the key is replaced, otherwise the
binding is appended. -/
def jinsert {α : Type} : List (String × α) → String → α → List (String × α)
  | [], key, v => [(key, v)]
  | (k, w) :: rest, key, v =>
      if k = key then (k, v) :: rest else (k, w) :: jinsert rest key v

/-- Association-list remove, modelling HashMap::remove: returns the removed
value (if any) together with the remaining table. -/
def jremove {α : Type} : List (String × α) → String → Option α × List (String × α)
  | [], _ => (none, [])
  | (k, w) :: rest, key =>
      if k = key then (some w, rest)
      else
        let r := jremove rest key
        (r.1, (k, w) :: r.2)

/-- Model of serde_json Value::get with a string index: defined on objects,
none on every other value. -/
def JValue.get : JValue → String → Option JValue
  | .obj fields, key => jlookup fields key
  | _, _ => none

/-- Model of Value::as_str. -/
def JValue.asStr : JValue → Option String
  | .str s => some s
  | _ => none

/-- Model of Value::as_array. -/
def JValue.asArr : JValue → Option (List JValue)
  | .arr items => some items
  | _ => none

/-- Model of Value::as_object. -/
def JValue.asObj : JValue → Option (List (String × JValue))
  | .obj fields => some fields
  | _ => none

/-- Lower-case hexadecimal digit, used by the JSON string escaper. -/
def hexDigit (n : Nat) : Char :=
  if n < 10 then Char.ofNat (48 + n) else Char.ofNat (87 + n)

/-- serde_json escaping of one character inside a JSON string: quote and
backslash are escaped, control characters use the short forms or a \u00XX
escape, everything else passes through. -/
def escapeChar (c : Char) : String :=
  let n := c.toNat
  if c = '"' then "\\\""
  else if c = '\\' then "\\\\"
  else if n = 8 then "\\b"
  else if n = 9 then "\\t"
  else if n = 10 then "\\n"
  else if n = 12 then "\\f"
  else if n = 13 then "\\r"
  else if n < 32 then "\\u00" ++ String.mk [hexDigit (n / 16), hexDigit (n % 16)]
  else String.singleton c

/-- serde_json escaping of a whole string body. -/
def escapeString (s : String) : String :=
  String.join (s.data.map escapeChar)

mutual

/-- Model of serde_json::to_string (compact serialization), which is also the
Display form used by Value::to_string in the Rust source. -/
def JValue.render : JValue → String
  | .null => "null"
  | .bool true => "true"
  | .bool false => "false"
  | .num n => toString n
  | .str s => "\"" ++ escapeString s ++ "\""
  | .arr items => "[" ++ renderItems items ++ "]"
  | .obj fields => "\x7b" ++ renderFields fields ++ "\x7d"

/-- Comma-separated rendering of array elements. -/
def renderItems : List JValue → String
  | [] => ""
  | [v] => JValue.render v
  | v :: rest => JValue.render v ++ "," ++ renderItems rest

/-- Comma-separated rendering of object fields. -/
def renderFields : List (String × JValue) → String
  | [] => ""
  | [(k, v)] => "\"" ++ escapeString k ++ "\":" ++ JValue.render v
  | (k, v) :: rest =>
      "\"" ++ escapeString k ++ "\":" ++ JValue.render v ++ "," ++ renderFields rest

end

/-- The CALLBACK_PREFIX constant of the crate. -/
def callbackMarker : String := "__callback__"

/-- Model of Rust str::starts_with for string patterns (byte-level prefix
test, modelled on characters). -/
def strIsPrefixOf (p s : String) : Bool := p.data.isPrefixOf s.data

/-- Dropping the first n characters of a string (Rust slicing by the pattern
length inside trim_start_matches). -/
def strDrop (s : String) (n : Nat) : String := String.mk (s.data.drop n)

/-- Fuel-driven loop of trim_start_matches: while the string starts with the
CALLBACK_PREFIX, remove one occurrence.  The fuel s.length is always enough
because each round removes at least one character. -/
def stripMarkerGo : Nat → String → String
  | 0, s => s
  | fuel + 1, s =>
      if strIsPrefixOf callbackMarker s then
        stripMarkerGo fuel (strDrop s callbackMarker.length)
      else s

/-- Model of text.trim_start_matches(CALLBACK_PREFIX) from wrap_callback_args:
removes every leading occurrence of the prefix, not only the first one. -/
def trimStartCallback (s : String) : String := stripMarkerGo s.length s

/-- Model of Rust str::trim as used on inbound lines (whitespace stripped
from both ends). -/
def trimChars (cs : List Char) : List Char :=
  ((cs.dropWhile Char.isWhitespace).reverse.dropWhile Char.isWhitespace).reverse

/-- String-level wrapper of the trim model. -/
def rustTrim (s : String) : String := String.mk (trimChars s.data)

/-- The response envelope built by handle_server_request, handle_server_get,
handle_server_set and handle_server_construct with the json! builder. -/
def responseEnvelope (request_id : String) (result : JValue) : JValue :=
  .obj [("id", .str request_id), ("method", .str ""),
        ("args", .obj [("result", result)]),
        ("type", .str "response"), ("version", .str "json")]

/-- The callback envelope built by the closure synthesized in
wrap_callback_args. -/
def callbackEnvelope (request_id method : String) (args : List JValue) : JValue :=
  .obj [("id", .str request_id), ("method", .str method), ("args", .arr args),
        ("type", .str "callback"), ("version", .str "json")]

/-- State of the writer half of the stdio transport: the bytes transmitted so far
and whether the last write flushed. -/
structure StdioWriter : Type where
  transmitted : String
  flushed : Bool

/-- Model of StdioTransport::write (success path): the message is written
byte-for-byte as given — the transport itself appends nothing — and the
writer is flushed before returning. -/
def stdioTransportWrite (w : StdioWriter) (message : String) : StdioWriter :=
  { transmitted := w.transmitted ++ message, flushed := true }

/-- Model of StdioTransport::close, whose body is empty in the source. -/
def stdioTransportClose (w : StdioWriter) : StdioWriter := w

/-- Model of the free function write_message: serialize the value (this
cannot fail for a JValue) and hand serialized ++ a newline to
Transport::write. -/
def write_message (w : StdioWriter) (message : JValue) : StdioWriter :=
  stdioTransportWrite w (message.render ++ "\n")

/-- Server-side argument after unmarshaling (the Arg enum of the crate): either a
plain JSON value or a synthesized callback closure.  The closure is modelled
by the envelope it hands to write_message on each invocation; the Rust
closure performs exactly one write_message call per invocation. -/
inductive SArg : Type where
  | value (v : JValue) : SArg
  | callback (emit : List JValue → JValue) : SArg

/-- Model of wrap_callback_args: each string argument carrying the
CALLBACK_PREFIX becomes a synthesized callback that emits a callback
envelope bearing the originating request id and the token obtained by
trim_start_matches; every other argument passes through as a value. -/
def wrap_callback_args (request_id : String) (args : List JValue) : List SArg :=
  args.map fun value =>
    match value with
    | .str text =>
        if strIsPrefixOf callbackMarker text then
          .callback (fun callback_args =>
            callbackEnvelope request_id (trimStartCallback text) callback_args)
        else .value (.str text)
    | other => .value other

/-- The envelope written per invocation of a wrapped argument, none for
plain values. -/
def emittedEnvelope (a : SArg) (callback_args : List JValue) : Option JValue :=
  match a with
  | .value _ => none
  | .callback emit => some (emit callback_args)

/-- Model of handle_server_request: look the method name up in api.methods
by exact string equality, run the handler on the unmarshaled arguments (or
produce null on a miss), and return the single response envelope passed to
write_message. -/
def handle_server_request (methods : List (String × (List SArg → JValue)))
    (message : JValue) : JValue :=
  let request_id := ((message.get "id").bind JValue.asStr).getD ""
  let method := ((message.get "method").bind JValue.asStr).getD ""
  let args := ((message.get "args").bind JValue.asArr).getD []
  let converted := wrap_callback_args request_id args
  let result := ((jlookup methods method).map (fun call => call converted)).getD .null
  responseEnvelope request_id result

/-- Model of handle_server_construct, identical to handle_server_request but
reading api.constructors. -/
def handle_server_construct (constructors : List (String × (List SArg → JValue)))
    (message : JValue) : JValue :=
  let request_id := ((message.get "id").bind JValue.asStr).getD ""
  let method := ((message.get "method").bind JValue.asStr).getD ""
  let args := ((message.get "args").bind JValue.asArr).getD []
  let converted := wrap_callback_args request_id args
  let result := ((jlookup constructors method).map (fun call => call converted)).getD .null
  responseEnvelope request_id result

/-- Path joining as done by handle_server_get / handle_server_set: keep the
string elements (filter_map of as_str), join with a dot. -/
def pathJoin (path_values : List JValue) : String :=
  String.intercalate "." (path_values.filterMap JValue.asStr)

/-- Model of handle_server_get: read api.data at the joined path, default to
null, return the response envelope passed to write_message. -/
def handle_server_get (data : List (String × JValue)) (message : JValue) : JValue :=
  let request_id := ((message.get "id").bind JValue.asStr).getD ""
  let path := pathJoin (((message.get "path").bind JValue.asArr).getD [])
  let result := (jlookup data path).getD .null
  responseEnvelope request_id result

/-- Model of handle_server_set: store the value (missing value becomes null)
under the joined path and return the updated store together with the
response envelope, whose result is the literal boolean true. -/
def handle_server_set (data : List (String × JValue)) (message : JValue) :
    List (String × JValue) × JValue :=
  let request_id := ((message.get "id").bind JValue.asStr).getD ""
  let path := pathJoin (((message.get "path").bind JValue.asArr).getD [])
  let value := (message.get "value").getD .null
  (jinsert data path value, responseEnvelope request_id (.bool true))

/-- The RpcError record of the crate. -/
structure RpcError : Type where
  name : Option String
  message : String
  data : JValue

/-- The ResponsePayload record of the crate, sent over the pending-call channel. -/
structure ResponsePayload : Type where
  result : Option JValue
  error : Option RpcError

/-- Payload construction of handle_response: if args.error is present, build
an RpcError — from name/message fields when the error is an object, from the
Display serialization of the whole value otherwise; if args.error is absent,
deliver args.result. -/
def parseResponsePayload (message : JValue) : ResponsePayload :=
  let args := (message.get "args").getD .null
  match args.get "error" with
  | some error_value =>
      match error_value with
      | .obj error_obj =>
          { result := none,
            error := some
              { name := (jlookup error_obj "name").bind JValue.asStr,
                message := ((jlookup error_obj "message").bind JValue.asStr).getD "RPC error",
                data := error_value } }
      | _ =>
          { result := none,
            error := some
              { name := none, message := error_value.render, data := error_value } }
  | none => { result := args.get "result", error := none }

/-- Tail of Client::send_request after the response payload arrives: an
error payload is returned as the failure, otherwise the result (null when
missing) is returned as the success. -/
def deliverResponse (payload : ResponsePayload) : Except RpcError JValue :=
  match payload.error with
  | some e => .error e
  | none => .ok (payload.result.getD .null)

/-- Model of handle_response acting on the pending-call table: remove the
entry matching the message id (as_str with default empty string); when one
is found, deliver the parsed payload to exactly that awaiter, otherwise
leave the table as is and deliver nothing. -/
def handle_response {AW : Type} (pending : List (String × AW)) (message : JValue) :
    List (String × AW) × List (AW × ResponsePayload) :=
  let request_id := ((message.get "id").bind JValue.asStr).getD ""
  match jremove pending request_id with
  | (none, _) => (pending, [])
  | (some aw, rest) => (rest, [(aw, parseResponsePayload message)])

/-- Model of handle_callback acting on the callback registry: read the token
from the method field, look it up, and on a hit invoke the stored callback
with the args array (missing or non-array args become the empty list).  The
registry itself is never modified; the returned list records the
invocations performed (empty on a miss). -/
def handle_callback {CB : Type} (callbacks : List (String × CB)) (message : JValue) :
    List (CB × List JValue) :=
  match (message.get "method").bind JValue.asStr with
  | none => []
  | some callback_id =>
      match jlookup callbacks callback_id with
      | none => []
      | some cb =>
          let args := ((message.get "args").bind JValue.asArr).getD []
          [(cb, args)]

/-- Client-side shared state: the pending-call table and the callback
registry.  Awaiters and registered callbacks are abstract. -/
structure ClientState (CB AW : Type) : Type where
  pending : List (String × AW)
  callbacks : List (String × CB)

/-- Outcome of one round of the client reader loop. -/
structure ClientStepResult (CB AW : Type) : Type where
  state : ClientState CB AW
  deliveries : List (AW × ResponsePayload)
  invocations : List (CB × List JValue)
  terminated : Bool

/-- One round of the reader loop spawned by Client::new, driven by one
Transport::read result: absent input breaks the loop; an inbound line is
trimmed, empty lines are skipped, non-JSON lines are skipped (the decoder is
a parameter standing for serde_json::from_str), response and callback
envelopes are dispatched, and any other type is dropped.  Every processed
line leaves the loop running. -/
def clientReadStep {CB AW : Type} (decode : String → Option JValue)
    (st : ClientState CB AW) (input : Option String) : ClientStepResult CB AW :=
  match input with
  | none => { state := st, deliveries := [], invocations := [], terminated := true }
  | some line =>
      let trimmed := rustTrim line
      if trimmed.data.isEmpty then
        { state := st, deliveries := [], invocations := [], terminated := false }
      else
        match decode trimmed with
        | none => { state := st, deliveries := [], invocations := [], terminated := false }
        | some message =>
            match (message.get "type").bind JValue.asStr with
            | some "response" =>
                let r := handle_response st.pending message
                { state := { st with pending := r.1 }, deliveries := r.2,
                  invocations := [], terminated := false }
            | some "callback" =>
                { state := st, deliveries := [],
                  invocations := handle_callback st.callbacks message,
                  terminated := false }
            | _ => { state := st, deliveries := [], invocations := [], terminated := false }

/-- Client-supplied argument of a call (the Arg enum of the crate on the sending
side); registered callbacks are abstract. -/
inductive ClientArg (CB : Type) : Type where
  | value (v : JValue) : ClientArg CB
  | callback (cb : CB) : ClientArg CB

/-- Result of the argument-marshaling loop of Client::send_request:
the processed wire arguments, the emitted callback tokens in order, the
updated callback registry, and the next index of the id supply. -/
structure MarshalOut (CB : Type) : Type where
  processed : List JValue
  tokens : List String
  registry : List (String × CB)
  next : Nat

/-- The marshaling loop of Client::send_request.  generate_uuid is modelled
by an id supply gen indexed by a counter; each callback argument draws a
fresh id, is stored in the registry under it, and is replaced on the wire by
the CALLBACK_PREFIX followed by the id; plain values pass through. -/
def marshalArgs {CB : Type} (gen : Nat → String) :
    Nat → List (String × CB) → List (ClientArg CB) → MarshalOut CB
  | n, callbacks, [] => ⟨[], [], callbacks, n⟩
  | n, callbacks, .value v :: rest =>
      let r := marshalArgs gen n callbacks rest
      ⟨v :: r.processed, r.tokens, r.registry, r.next⟩
  | n, callbacks, .callback cb :: rest =>
      let callback_id := gen n
      let r := marshalArgs gen (n + 1) (jinsert callbacks callback_id cb) rest
      ⟨.str (callbackMarker ++ callback_id) :: r.processed,
       callback_id :: r.tokens, r.registry, r.next⟩

/-- The payload map built by Client::send_request, with the optional fields
inserted exactly when the source inserts them (method when present, args and
callbackIds when non-empty, path and value when present). -/
def buildRequestPayload (request_id message_type : String) (method : Option String)
    (processed_args callback_ids : List JValue) (path : Option (List JValue))
    (value : Option JValue) : JValue :=
  .obj ([("id", .str request_id), ("type", .str message_type), ("version", .str "json")]
    ++ (match method with | some m => [("method", .str m)] | none => [])
    ++ (if processed_args.isEmpty then [] else [("args", .arr processed_args)])
    ++ (if callback_ids.isEmpty then [] else [("callbackIds", .arr callback_ids)])
    ++ (match path with | some p => [("path", .arr p)] | none => [])
    ++ (match value with | some v => [("value", v)] | none => []))

/-- Observable side effects of Client::send_request in order: the insert
into the pending table, the inserts into the callback registry, the
transport write. -/
inductive ClientEvent : Type where
  | pendingInsert (request_id : String) : ClientEvent
  | callbackInsert (token : String) : ClientEvent
  | transportWrite (line : String) : ClientEvent

/-- Model of Client::call, which is send_request with message type request,
the method present, and no path or value.  Returns the marshaling result,
the emitted payload, and the event trace: the pending insert first, then one
registry insert per callback token in order, then the single transport write
of the serialized payload plus newline. -/
def client_call {CB : Type} (gen : Nat → String) (n : Nat)
    (callbacks : List (String × CB)) (method : String) (args : List (ClientArg CB)) :
    MarshalOut CB × JValue × List ClientEvent :=
  let request_id := gen n
  let r := marshalArgs gen (n + 1) callbacks args
  let payload := buildRequestPayload request_id "request" (some method)
    r.processed (r.tokens.map JValue.str) none none
  (r, payload,
    ClientEvent.pendingInsert request_id ::
      (r.tokens.map ClientEvent.callbackInsert ++
        [ClientEvent.transportWrite (payload.render ++ "\n")]))

/-- Model of Client::close, which only calls Transport::close; for the stdio
transport that body is empty, so neither the client state nor the transport
state changes. -/
def clientClose {CB AW : Type} (st : ClientState CB AW) (w : StdioWriter) :
    ClientState CB AW × StdioWriter :=
  (st, stdioTransportClose w)

/-- Inbound get envelope as seen by the server (path is an arbitrary JSON
array). -/
def getEnvelope (request_id : String) (path : List JValue) : JValue :=
  .obj [("id", .str request_id), ("type", .str "get"), ("version", .str "json"),
        ("path", .arr path)]

/-- Inbound set envelope as seen by the server. -/
def setEnvelope (request_id : String) (path : List JValue) (value : JValue) : JValue :=
  .obj [("id", .str request_id), ("type", .str "set"), ("version", .str "json"),
        ("path", .arr path), ("value", value)]

/-- Looking up the key just inserted finds the inserted value. -/
theorem jlookup_jinsert_self {α : Type} (t : List (String × α)) (k : String) (v : α) :
    jlookup (jinsert t k v) k = some v := by
  induction t with
  | nil => simp [jinsert, jlookup]
  | cons hd rest ih =>
      obtain ⟨k2, w⟩ := hd
      by_cases h : k2 = k
      · simp [jinsert, h, jlookup]
      · simp [jinsert, h, jlookup, ih]

/-- Insertion under one key does not disturb lookups under another. -/
theorem jlookup_jinsert_ne {α : Type} (t : List (String × α)) (k key : String) (v : α)
    (h : k ≠ key) : jlookup (jinsert t key v) k = jlookup t k := by
  induction t with
  | nil => simp [jinsert, jlookup, Ne.symm h]
  | cons hd rest ih =>
      obtain ⟨k2, w⟩ := hd
      by_cases h2 : k2 = key
      · subst h2
        simp [jinsert, jlookup, Ne.symm h]
      · simp [jinsert, h2, jlookup, ih]

/-- The removed value is exactly what lookup finds. -/
theorem jremove_fst_eq_jlookup {α : Type} (t : List (String × α)) (k : String) :
    (jremove t k).1 = jlookup t k := by
  induction t with
  | nil => rfl
  | cons hd rest ih =>
      obtain ⟨k2, w⟩ := hd
      by_cases h : k2 = k <;> simp [jremove, jlookup, h, ih]

/-- Removing an absent key leaves the table unchanged. -/
theorem jremove_snd_of_lookup_none {α : Type} (t : List (String × α)) (k : String)
    (h : jlookup t k = none) : (jremove t k).2 = t := by
  induction t with
  | nil => rfl
  | cons hd rest ih =>
      obtain ⟨k2, w⟩ := hd
      by_cases h2 : k2 = k
      · simp [jlookup, h2] at h
      · simp [jlookup, h2] at h
        simp [jremove, h2, ih h]

/-- A key outside the key list is not found. -/
theorem jlookup_eq_none_of_not_mem {α : Type} (t : List (String × α)) (k : String)
    (h : k ∉ t.map Prod.fst) : jlookup t k = none := by
  induction t with
  | nil => rfl
  | cons hd rest ih =>
      obtain ⟨k2, w⟩ := hd
      rw [List.map_cons, List.mem_cons] at h
      push_neg at h
      simp [jlookup, Ne.symm h.1, ih h.2]

/-- With unique keys, the key is gone from the table after removal. -/
theorem jlookup_jremove_snd_self {α : Type} (t : List (String × α)) (k : String)
    (hnd : (t.map Prod.fst).Nodup) : jlookup (jremove t k).2 k = none := by
  induction t with
  | nil => rfl
  | cons hd rest ih =>
      obtain ⟨k2, w⟩ := hd
      rw [List.map_cons, List.nodup_cons] at hnd
      by_cases h : k2 = k
      · subst h
        simp only [jremove, if_pos rfl]
        exact jlookup_eq_none_of_not_mem rest k2 hnd.1
      · simp [jremove, h, jlookup, ih hnd.2]

/-- Unmarshaling a path of plain strings keeps every element. -/
theorem filterMap_asStr_map_str (p : List String) :
    (p.map JValue.str).filterMap JValue.asStr = p := by
  induction p with
  | nil => rfl
  | cons hd rest ih => simp [JValue.asStr, ih]

/-- Joining a path of plain strings is plain intercalation. -/
theorem pathJoin_map_str (p : List String) :
    pathJoin (p.map JValue.str) = String.intercalate "." p := by
  show String.intercalate "." ((p.map JValue.str).filterMap JValue.asStr)
    = String.intercalate "." p
  rw [filterMap_asStr_map_str]

/-- C3 counterexample: the stdio transport transmits the given string with no
framing byte appended by the transport itself, so writing "abc" does not
transmit "abc" followed by a newline. -/
theorem C3_counterexample :
    (stdioTransportWrite ⟨"", false⟩ "abc").transmitted = "abc" ∧ "abc" ≠ "abc\n" :=
  ⟨rfl, by decide⟩

/-- C3 (amended): Transport::write of the stdio transport transmits exactly
the string it is given and flushes before returning success; the single
newline framing byte is appended by write_message, which hands the
serialized envelope followed by a newline to the transport. -/
theorem C3_write_and_framing (w : StdioWriter) (line : String) (m : JValue) :
    (stdioTransportWrite w line).transmitted = w.transmitted ++ line ∧
    (stdioTransportWrite w line).flushed = true ∧
    (write_message w m).transmitted = w.transmitted ++ (m.render ++ "\n") ∧
    (write_message w m).flushed = true :=
  ⟨rfl, rfl, rfl, rfl⟩

/-- C4: dispatching set stores the value under the dot-joined key and
responds with the literal boolean true; a following get returns exactly the
value just set; a second set overwrites; get of an unset path responds with
null. -/
theorem C4_set_get_roundtrip (data : List (String × JValue)) (p : List String)
    (v1 v2 : JValue) (rid1 rid2 rid3 : String) :
    (handle_server_set data (setEnvelope rid1 (p.map JValue.str) v1)).1
        = jinsert data (String.intercalate "." p) v1 ∧
    (handle_server_set data (setEnvelope rid1 (p.map JValue.str) v1)).2
        = responseEnvelope rid1 (JValue.bool true) ∧
    handle_server_get (handle_server_set data (setEnvelope rid1 (p.map JValue.str) v1)).1
        (getEnvelope rid2 (p.map JValue.str)) = responseEnvelope rid2 v1 ∧
    handle_server_get (handle_server_set
          (handle_server_set data (setEnvelope rid1 (p.map JValue.str) v1)).1
          (setEnvelope rid2 (p.map JValue.str) v2)).1
        (getEnvelope rid3 (p.map JValue.str)) = responseEnvelope rid3 v2 ∧
    (jlookup data (String.intercalate "." p) = none →
        handle_server_get data (getEnvelope rid2 (p.map JValue.str))
          = responseEnvelope rid2 JValue.null) := by
  have hkey := pathJoin_map_str p
  refine ⟨?_, rfl, ?_, ?_, ?_⟩
  · show jinsert data (pathJoin (p.map JValue.str)) v1
        = jinsert data (String.intercalate "." p) v1
    rw [hkey]
  · show responseEnvelope rid2
        ((jlookup (jinsert data (pathJoin (p.map JValue.str)) v1)
          (pathJoin (p.map JValue.str))).getD JValue.null) = responseEnvelope rid2 v1
    rw [jlookup_jinsert_self]
    rfl
  · show responseEnvelope rid3
        ((jlookup (jinsert (jinsert data (pathJoin (p.map JValue.str)) v1)
            (pathJoin (p.map JValue.str)) v2)
          (pathJoin (p.map JValue.str))).getD JValue.null) = responseEnvelope rid3 v2
    rw [jlookup_jinsert_self]
    rfl
  · intro hnone
    show responseEnvelope rid2
        ((jlookup data (pathJoin (p.map JValue.str))).getD JValue.null)
      = responseEnvelope rid2 JValue.null
    rw [hkey, hnone]
    rfl

/-- C4 witness: a concrete set/get round trip through the server handlers. -/
theorem C4_witness :
    jlookup ([] : List (String × JValue)) (String.intercalate "." ["settings", "theme"]) = none ∧
    handle_server_get [] (getEnvelope "r2" (["settings", "theme"].map JValue.str))
      = responseEnvelope "r2" JValue.null :=
  ⟨rfl, (C4_set_get_roundtrip [] ["settings", "theme"]
      (JValue.str "dark") JValue.null "r1" "r2" "r3").2.2.2.2 rfl⟩

/-- C9: Client::close only calls Transport::close, and for the stdio
transport that close body is empty, so closing changes neither the tables of
the client nor the
transport: nothing marks the peer closed and nothing fails the pending or
future calls. -/
theorem C9_close_is_noop {CB AW : Type} (st : ClientState CB AW) (w : StdioWriter) :
    clientClose st w = (st, w) := rfl

/-- C10: get and set silently skip non-string path elements and join the
string elements with a dot; in particular a path of "a", 1, "b" reads and
writes the key "a.b". -/
theorem C10_nonstring_path_elements (data : List (String × JValue)) (pvals : List JValue)
    (rid : String) (v : JValue) :
    handle_server_get data (getEnvelope rid pvals)
      = responseEnvelope rid
          ((jlookup data
            (String.intercalate "." (pvals.filterMap JValue.asStr))).getD JValue.null) ∧
    handle_server_get [("a.b", v)]
        (getEnvelope rid [JValue.str "a", JValue.num 1, JValue.str "b"])
      = responseEnvelope rid v ∧
    handle_server_get []
        (getEnvelope rid [JValue.str "a", JValue.num 1, JValue.str "b"])
      = responseEnvelope rid JValue.null ∧
    (handle_server_set data (setEnvelope rid [JValue.str "a", JValue.num 1, JValue.str "b"] v)).1
      = jinsert data "a.b" v :=
  ⟨rfl, rfl, rfl, rfl⟩

/-- C5: an inbound request or construct envelope produces exactly one
response envelope of the documented shape, whose result is the registered
value of the registered handler under exact-string lookup, or null when no handler is
registered under the method name. -/
theorem C5_request_construct_response
    (methods constructors : List (String × (List SArg → JValue)))
    (message : JValue) (rid m : String)
    (hid : message.get "id" = some (JValue.str rid))
    (hm : message.get "method" = some (JValue.str m)) :
    (∀ call, jlookup methods m = some call →
        handle_server_request methods message
          = responseEnvelope rid
              (call (wrap_callback_args rid
                (((message.get "args").bind JValue.asArr).getD [])))) ∧
    (jlookup methods m = none →
        handle_server_request methods message = responseEnvelope rid JValue.null) ∧
    (∀ call, jlookup constructors m = some call →
        handle_server_construct constructors message
          = responseEnvelope rid
              (call (wrap_callback_args rid
                (((message.get "args").bind JValue.asArr).getD [])))) ∧
    (jlookup constructors m = none →
        handle_server_construct constructors message = responseEnvelope rid JValue.null) ∧
    (∀ v : JValue,
        (responseEnvelope rid v).get "id" = some (JValue.str rid) ∧
        (responseEnvelope rid v).get "method" = some (JValue.str "") ∧
        (responseEnvelope rid v).get "args" = some (JValue.obj [("result", v)]) ∧
        (responseEnvelope rid v).get "type" = some (JValue.str "response") ∧
        (responseEnvelope rid v).get "version" = some (JValue.str "json")) := by
  refine ⟨?_, ?_, ?_, ?_, ?_⟩
  · intro call hcall
    simp [handle_server_request, hid, hm, JValue.asStr, hcall]
  · intro hmiss
    simp [handle_server_request, hid, hm, JValue.asStr, hmiss]
  · intro call hcall
    simp [handle_server_construct, hid, hm, JValue.asStr, hcall]
  · intro hmiss
    simp [handle_server_construct, hid, hm, JValue.asStr, hmiss]
  · intro v
    exact ⟨rfl, rfl, rfl, rfl, rfl⟩

/-- C5 witness: a concrete request against a one-method api and a construct
against an empty constructor table. -/
theorem C5_witness :
    handle_server_request [("math.add", fun _ => JValue.num 9)]
        (JValue.obj [("id", JValue.str "r1"), ("method", JValue.str "math.add"),
          ("args", JValue.arr [JValue.num 3, JValue.num 6]),
          ("type", JValue.str "request"), ("version", JValue.str "json")])
      = responseEnvelope "r1" (JValue.num 9) ∧
    handle_server_construct ([] : List (String × (List SArg → JValue)))
        (JValue.obj [("id", JValue.str "r2"), ("method", JValue.str "NoSuch"),
          ("type", JValue.str "construct"), ("version", JValue.str "json")])
      = responseEnvelope "r2" JValue.null :=
  ⟨(C5_request_construct_response [("math.add", fun _ => JValue.num 9)] []
      (JValue.obj [("id", JValue.str "r1"), ("method", JValue.str "math.add"),
        ("args", JValue.arr [JValue.num 3, JValue.num 6]),
        ("type", JValue.str "request"), ("version", JValue.str "json")])
      "r1" "math.add" rfl rfl).1 (fun _ => JValue.num 9) rfl,
   (C5_request_construct_response [("math.add", fun _ => JValue.num 9)] []
      (JValue.obj [("id", JValue.str "r2"), ("method", JValue.str "NoSuch"),
        ("type", JValue.str "construct"), ("version", JValue.str "json")])
      "r2" "NoSuch" rfl rfl).2.2.2.1 rfl⟩

/-- The pending-table branch of handle_response when the id is absent from
the table: nothing is removed and nothing is delivered. -/
theorem handle_response_not_found {AW : Type} (pending : List (String × AW))
    (message : JValue) (rid : String)
    (hid : message.get "id" = some (JValue.str rid))
    (hnone : jlookup pending rid = none) :
    handle_response pending message = (pending, []) := by
  have hreq : ((message.get "id").bind JValue.asStr).getD "" = rid := by
    rw [hid]; rfl
  have hjr : jremove pending rid = (none, (jremove pending rid).2) := by
    rw [Prod.ext_iff]
    exact ⟨(jremove_fst_eq_jlookup pending rid).trans hnone, rfl⟩
  simp only [handle_response, hreq]
  rw [hjr]

/-- The pending-table branch of handle_response when the id is present: the
entry is removed and the parsed payload goes to exactly that awaiter. -/
theorem handle_response_found {AW : Type} (pending : List (String × AW))
    (message : JValue) (rid : String) (aw : AW)
    (hid : message.get "id" = some (JValue.str rid))
    (haw : jlookup pending rid = some aw) :
    handle_response pending message
      = ((jremove pending rid).2, [(aw, parseResponsePayload message)]) := by
  have hreq : ((message.get "id").bind JValue.asStr).getD "" = rid := by
    rw [hid]; rfl
  have hjr : jremove pending rid = (some aw, (jremove pending rid).2) := by
    rw [Prod.ext_iff]
    exact ⟨(jremove_fst_eq_jlookup pending rid).trans haw, rfl⟩
  simp only [handle_response, hreq]
  rw [hjr]

/-- C6: a response whose id matches a pending entry consumes exactly that
entry and delivers the payload to its awaiter; afterwards the id is gone, so
a second response with the same id — like any unmatched response — leaves
the table unchanged and delivers nothing. -/
theorem C6_pending_table {AW : Type} (pending : List (String × AW))
    (message : JValue) (rid : String)
    (hid : message.get "id" = some (JValue.str rid))
    (hnd : (pending.map Prod.fst).Nodup) :
    (∀ aw, jlookup pending rid = some aw →
        (handle_response pending message).1 = (jremove pending rid).2 ∧
        jlookup (handle_response pending message).1 rid = none ∧
        (handle_response pending message).2 = [(aw, parseResponsePayload message)] ∧
        handle_response (handle_response pending message).1 message
          = ((handle_response pending message).1, [])) ∧
    (jlookup pending rid = none → handle_response pending message = (pending, [])) := by
  constructor
  · intro aw haw
    have h1 := handle_response_found pending message rid aw hid haw
    have hgone : jlookup (handle_response pending message).1 rid = none := by
      rw [h1]
      exact jlookup_jremove_snd_self pending rid hnd
    exact ⟨by rw [h1], hgone, by rw [h1],
      handle_response_not_found _ message rid hid hgone⟩
  · intro hnone
    exact handle_response_not_found pending message rid hid hnone

/-- C6 witness: a two-entry table, a matching response, then the same
response again. -/
theorem C6_witness :
    (handle_response [("a", (0 : Nat)), ("b", 1)]
        (JValue.obj [("id", JValue.str "a"), ("type", JValue.str "response"),
          ("args", JValue.obj [("result", JValue.num 3)])])).2
      = [((0 : Nat), parseResponsePayload
          (JValue.obj [("id", JValue.str "a"), ("type", JValue.str "response"),
            ("args", JValue.obj [("result", JValue.num 3)])]))] ∧
    jlookup (handle_response [("a", (0 : Nat)), ("b", 1)]
        (JValue.obj [("id", JValue.str "a"), ("type", JValue.str "response"),
          ("args", JValue.obj [("result", JValue.num 3)])])).1 "a" = none :=
  ⟨((C6_pending_table [("a", (0 : Nat)), ("b", 1)]
      (JValue.obj [("id", JValue.str "a"), ("type", JValue.str "response"),
        ("args", JValue.obj [("result", JValue.num 3)])])
      "a" rfl (by decide)).1 0 rfl).2.2.1,
   ((C6_pending_table [("a", (0 : Nat)), ("b", 1)]
      (JValue.obj [("id", JValue.str "a"), ("type", JValue.str "response"),
        ("args", JValue.obj [("result", JValue.num 3)])])
      "a" rfl (by decide)).1 0 rfl).2.1⟩

/-- An as_object hit identifies the value as an object. -/
theorem asObj_eq_some {v : JValue} {fields : List (String × JValue)}
    (h : v.asObj = some fields) : v = JValue.obj fields := by
  cases v <;> simp [JValue.asObj] at h
  subst h
  rfl

/-- handle_response payload when args.error is an object: the RpcError takes
name and message from the fields of the object (message defaulting to "RPC error"
when absent or not a string) and keeps the whole error value as data. -/
theorem parseResponsePayload_error_obj (message : JValue)
    (fields : List (String × JValue))
    (hev : ((message.get "args").getD JValue.null).get "error"
      = some (JValue.obj fields)) :
    parseResponsePayload message
      = { result := none,
          error := some
            { name := (jlookup fields "name").bind JValue.asStr,
              message := ((jlookup fields "message").bind JValue.asStr).getD "RPC error",
              data := JValue.obj fields } } := by
  simp only [parseResponsePayload]
  rw [hev]

/-- handle_response payload when args.error is present but not an object:
the RpcError has no name, its message is the Display serialization of the
error value, and data is the error value. -/
theorem parseResponsePayload_error_nonobj (message ev : JValue)
    (hev : ((message.get "args").getD JValue.null).get "error" = some ev)
    (hobj : ev.asObj = none) :
    parseResponsePayload message
      = { result := none,
          error := some { name := none, message := ev.render, data := ev } } := by
  simp only [parseResponsePayload]
  rw [hev]
  cases ev <;> first | rfl | simp [JValue.asObj] at hobj

/-- handle_response payload when args.error is absent: the result field is
delivered as is. -/
theorem parseResponsePayload_no_error (message : JValue)
    (hev : ((message.get "args").getD JValue.null).get "error" = none) :
    parseResponsePayload message
      = { result := ((message.get "args").getD JValue.null).get "result",
          error := none } := by
  simp only [parseResponsePayload]
  rw [hev]

/-- C2 counterexample: for an inbound response whose args.error is the
number 42 — not an object, with no message field — the message of the RpcError is
the serialization "42" of the error value, not the claimed default
"RPC error". -/
theorem C2_counterexample :
    ((parseResponsePayload (JValue.obj [("id", JValue.str "1"),
        ("args", JValue.obj [("error", JValue.num 42)])])).error.map
      RpcError.message) = some "42" ∧
    some "42" ≠ some "RPC error" :=
  ⟨rfl, by decide⟩

/-- C2 (amended): when args.error is present the caller receives a failure
whose data is the full error value; when the error is an object its name is
the string at error.name (absent when missing or not a string) and its
message is the string at error.message, defaulting to "RPC error" when that
field is missing or not a string; when the error is not an object the name
is absent and the message is the serialization of the error value.  When
args.error is absent the caller receives success with args.result, or null
when result is missing. -/
theorem C2_response_delivery (message : JValue) :
    (∀ ev, ((message.get "args").getD JValue.null).get "error" = some ev →
        ∃ e, deliverResponse (parseResponsePayload message) = Except.error e ∧
          e.data = ev ∧
          (∀ fields, ev = JValue.obj fields →
              e.name = (jlookup fields "name").bind JValue.asStr ∧
              e.message = ((jlookup fields "message").bind JValue.asStr).getD "RPC error") ∧
          (ev.asObj = none → e.name = none ∧ e.message = ev.render)) ∧
    (((message.get "args").getD JValue.null).get "error" = none →
        deliverResponse (parseResponsePayload message)
          = Except.ok ((((message.get "args").getD JValue.null).get "result").getD
              JValue.null)) := by
  constructor
  · intro ev hev
    rcases hobj : ev.asObj with _ | fields
    · refine ⟨⟨none, ev.render, ev⟩, ?_, rfl, ?_, fun _ => ⟨rfl, rfl⟩⟩
      · rw [parseResponsePayload_error_nonobj message ev hev hobj]
        rfl
      · intro fields hf
        subst hf
        simp [JValue.asObj] at hobj
    · have hev2 := asObj_eq_some hobj
      subst hev2
      refine ⟨⟨(jlookup fields "name").bind JValue.asStr,
          ((jlookup fields "message").bind JValue.asStr).getD "RPC error",
          JValue.obj fields⟩, ?_, rfl, ?_, ?_⟩
      · rw [parseResponsePayload_error_obj message fields hev]
        rfl
      · intro fields2 hf
        injection hf with hf2
        subst hf2
        exact ⟨rfl, rfl⟩
      · intro hcontra
        exact Option.noConfusion hcontra
  · intro hev
    rw [parseResponsePayload_no_error message hev]
    rfl

/-- C2 witness: an object-shaped error is delivered as a failure with the
given name and message; an error-free response is delivered as the success
value of args.result. -/
theorem C2_witness :
    (∃ e, deliverResponse (parseResponsePayload (JValue.obj [("id", JValue.str "1"),
          ("args", JValue.obj [("error",
            JValue.obj [("name", JValue.str "E"), ("message", JValue.str "boom")])])]))
        = Except.error e ∧
        e.data = JValue.obj [("name", JValue.str "E"), ("message", JValue.str "boom")] ∧
        (∀ fields, JValue.obj [("name", JValue.str "E"), ("message", JValue.str "boom")]
            = JValue.obj fields →
          e.name = (jlookup fields "name").bind JValue.asStr ∧
          e.message = ((jlookup fields "message").bind JValue.asStr).getD "RPC error") ∧
        ((JValue.obj [("name", JValue.str "E"), ("message", JValue.str "boom")]).asObj = none →
          e.name = none ∧
          e.message = (JValue.obj [("name", JValue.str "E"),
            ("message", JValue.str "boom")]).render)) ∧
    deliverResponse (parseResponsePayload (JValue.obj [("id", JValue.str "2"),
        ("args", JValue.obj [("result", JValue.num 5)])]))
      = Except.ok (((((JValue.obj [("id", JValue.str "2"),
          ("args", JValue.obj [("result", JValue.num 5)])]).get "args").getD
            JValue.null).get "result").getD JValue.null) :=
  ⟨(C2_response_delivery (JValue.obj [("id", JValue.str "1"),
      ("args", JValue.obj [("error",
        JValue.obj [("name", JValue.str "E"), ("message", JValue.str "boom")])])])).1
    (JValue.obj [("name", JValue.str "E"), ("message", JValue.str "boom")]) rfl,
   (C2_response_delivery (JValue.obj [("id", JValue.str "2"),
      ("args", JValue.obj [("result", JValue.num 5)])])).2 rfl⟩

/-- The classification test of wrap_callback_args: a string argument
beginning with the CALLBACK_PREFIX. -/
def isCallbackToken : JValue → Bool
  | .str text => strIsPrefixOf callbackMarker text
  | _ => false

/-- C1 counterexample: for the inbound argument string made of the prefix
twice followed by "x", the synthesized callback emits a method token "x"
(the code strips the prefix repeatedly), while stripping the prefix once
would give the prefix followed by "x". -/
theorem C1_counterexample :
    (((wrap_callback_args "r" [JValue.str "__callback____callback__x"])[0]?.bind
        (fun a => emittedEnvelope a [])).bind
      (fun env => (env.get "method").bind JValue.asStr)) = some "x" ∧
    some "x" ≠ some ("__callback__" ++ "x") :=
  ⟨rfl, by decide⟩

/-- C1 (amended): each element of args that is a string beginning with the
CALLBACK_PREFIX is replaced by a synthesized function which, invoked with
any array, emits exactly one callback envelope carrying the originating
request id and the token obtained by stripping every leading occurrence of
the prefix (Rust trim_start_matches); every other element passes through
unchanged as a plain value. -/
theorem C1_wrap_callback_args (rid : String) (args : List JValue) (i : Nat) :
    (∀ text, args[i]? = some (JValue.str text) →
        strIsPrefixOf callbackMarker text = true →
        (wrap_callback_args rid args)[i]?
          = some (SArg.callback (fun callback_args =>
              callbackEnvelope rid (trimStartCallback text) callback_args))) ∧
    (∀ v, args[i]? = some v → isCallbackToken v = false →
        (wrap_callback_args rid args)[i]? = some (SArg.value v)) ∧
    (wrap_callback_args rid args).length = args.length ∧
    (∀ tok cbArgs,
        (callbackEnvelope rid tok cbArgs).get "id" = some (JValue.str rid) ∧
        (callbackEnvelope rid tok cbArgs).get "method" = some (JValue.str tok) ∧
        (callbackEnvelope rid tok cbArgs).get "args" = some (JValue.arr cbArgs) ∧
        (callbackEnvelope rid tok cbArgs).get "type" = some (JValue.str "callback") ∧
        (callbackEnvelope rid tok cbArgs).get "version" = some (JValue.str "json")) := by
  refine ⟨?_, ?_, by simp [wrap_callback_args],
    fun tok cbArgs => ⟨rfl, rfl, rfl, rfl, rfl⟩⟩
  · intro text hv hpre
    rw [wrap_callback_args, List.getElem?_map, hv]
    simp [hpre]
  · intro v hv hnot
    rw [wrap_callback_args, List.getElem?_map, hv]
    cases v with
    | str text =>
        simp only [isCallbackToken] at hnot
        simp [hnot]
    | null => rfl
    | bool b => rfl
    | num n => rfl
    | arr items => rfl
    | obj fields => rfl

/-- C1 witness: a prefixed string argument becomes a callback emitter and a
numeric argument passes through. -/
theorem C1_witness :
    (wrap_callback_args "r" [JValue.str "__callback__ab", JValue.num 5])[0]?
      = some (SArg.callback (fun callback_args =>
          callbackEnvelope "r" (trimStartCallback "__callback__ab") callback_args)) ∧
    (wrap_callback_args "r" [JValue.str "__callback__ab", JValue.num 5])[1]?
      = some (SArg.value (JValue.num 5)) :=
  ⟨(C1_wrap_callback_args "r" [JValue.str "__callback__ab", JValue.num 5] 0).1
      "__callback__ab" rfl (by decide),
   (C1_wrap_callback_args "r" [JValue.str "__callback__ab", JValue.num 5] 1).2.1
      (JValue.num 5) rfl (by decide)⟩

/-- C8: the client reader loop drops an empty line, an undecodable line, an
envelope without a recognized type, and a callback envelope whose token is
not registered — in every case with no state change, no delivery, no
invocation, and without terminating the loop. -/
theorem C8_reader_loop_drops {CB AW : Type} (decode : String → Option JValue)
    (st : ClientState CB AW) (line : String) :
    ((rustTrim line).data.isEmpty = true →
        clientReadStep decode st (some line) = ⟨st, [], [], false⟩) ∧
    ((rustTrim line).data.isEmpty = false → decode (rustTrim line) = none →
        clientReadStep decode st (some line) = ⟨st, [], [], false⟩) ∧
    (∀ message, (rustTrim line).data.isEmpty = false →
        decode (rustTrim line) = some message →
        (message.get "type").bind JValue.asStr ≠ some "response" →
        (message.get "type").bind JValue.asStr ≠ some "callback" →
        clientReadStep decode st (some line) = ⟨st, [], [], false⟩) ∧
    (∀ message token, (rustTrim line).data.isEmpty = false →
        decode (rustTrim line) = some message →
        (message.get "type").bind JValue.asStr = some "callback" →
        (message.get "method").bind JValue.asStr = some token →
        jlookup st.callbacks token = none →
        clientReadStep decode st (some line) = ⟨st, [], [], false⟩) := by
  refine ⟨?_, ?_, ?_, ?_⟩
  · intro h1
    simp [clientReadStep, h1]
  · intro h1 h2
    simp [clientReadStep, h1, h2]
  · intro message h1 h2 hne1 hne2
    simp only [clientReadStep, h1, Bool.false_eq_true, if_false, h2]
  · intro message token h1 h2 hty hmeth hmiss
    have hcb : handle_callback st.callbacks message = [] := by
      simp only [handle_callback, hmeth, hmiss]
    simp [clientReadStep, h1, h2, hty, hcb]

/-- C8 witness: a concrete callback envelope bearing an unregistered token
is dropped by the reader with nothing changed and the loop kept alive. -/
theorem C8_witness :
    clientReadStep
        (fun s => if s = "cbline" then some (JValue.obj [("id", JValue.str "1"),
          ("method", JValue.str "tok"), ("args", JValue.arr []),
          ("type", JValue.str "callback"), ("version", JValue.str "json")]) else none)
        (⟨[], [("known", 3)]⟩ : ClientState Nat Nat) (some "cbline")
      = ⟨⟨[], [("known", 3)]⟩, [], [], false⟩ :=
  (C8_reader_loop_drops
      (fun s => if s = "cbline" then some (JValue.obj [("id", JValue.str "1"),
        ("method", JValue.str "tok"), ("args", JValue.arr []),
        ("type", JValue.str "callback"), ("version", JValue.str "json")]) else none)
      (⟨[], [("known", 3)]⟩ : ClientState Nat Nat) "cbline").2.2.2
    (JValue.obj [("id", JValue.str "1"), ("method", JValue.str "tok"),
      ("args", JValue.arr []), ("type", JValue.str "callback"),
      ("version", JValue.str "json")])
    "tok" (by decide) rfl rfl rfl rfl

/-- Every token the marshaling loop emits is drawn from the id supply at or
past the starting counter. -/
theorem marshalArgs_token_bound {CB : Type} (gen : Nat → String) :
    ∀ (args : List (ClientArg CB)) (n : Nat) (callbacks : List (String × CB)) (t : String),
      t ∈ (marshalArgs gen n callbacks args).tokens → ∃ k, n ≤ k ∧ t = gen k := by
  intro args
  induction args with
  | nil =>
      intro n callbacks t ht
      simp [marshalArgs] at ht
  | cons a rest ih =>
      intro n callbacks t ht
      cases a with
      | value v => exact ih n callbacks t ht
      | callback cb =>
          rcases List.mem_cons.mp ht with h | h
          · exact ⟨n, Nat.le_refl n, h⟩
          · obtain ⟨k, hk, ht2⟩ := ih (n + 1) (jinsert callbacks (gen n) cb) t h
            exact ⟨k, Nat.le_trans (Nat.le_succ n) hk, ht2⟩

/-- With an injective id supply the emitted tokens are pairwise distinct. -/
theorem marshalArgs_tokens_nodup {CB : Type} (gen : Nat → String)
    (hinj : Function.Injective gen) :
    ∀ (args : List (ClientArg CB)) (n : Nat) (callbacks : List (String × CB)),
      (marshalArgs gen n callbacks args).tokens.Nodup := by
  intro args
  induction args with
  | nil =>
      intro n callbacks
      simp [marshalArgs]
  | cons a rest ih =>
      intro n callbacks
      cases a with
      | value v => exact ih n callbacks
      | callback cb =>
          refine List.nodup_cons.mpr ⟨?_, ih (n + 1) (jinsert callbacks (gen n) cb)⟩
          intro hmem
          obtain ⟨k, hk, ht⟩ := marshalArgs_token_bound gen rest (n + 1)
            (jinsert callbacks (gen n) cb) (gen n) hmem
          have := hinj ht
          omega

/-- The marshaling loop does not disturb registry bindings whose key is not
among the ids the supply can still produce. -/
theorem marshalArgs_registry_preserve {CB : Type} (gen : Nat → String) :
    ∀ (args : List (ClientArg CB)) (n : Nat) (callbacks : List (String × CB)) (key : String),
      (∀ k, n ≤ k → key ≠ gen k) →
      jlookup (marshalArgs gen n callbacks args).registry key = jlookup callbacks key := by
  intro args
  induction args with
  | nil =>
      intro n callbacks key hkey
      rfl
  | cons a rest ih =>
      intro n callbacks key hkey
      cases a with
      | value v => exact ih n callbacks key hkey
      | callback cb =>
          have h1 := ih (n + 1) (jinsert callbacks (gen n) cb) key
            (fun k hk => hkey k (Nat.le_trans (Nat.le_succ n) hk))
          have h2 := jlookup_jinsert_ne callbacks key (gen n) cb (hkey n (Nat.le_refl n))
          exact h1.trans h2

/-- The processed wire argument list has one entry per caller argument. -/
theorem marshalArgs_length {CB : Type} (gen : Nat → String) :
    ∀ (args : List (ClientArg CB)) (n : Nat) (callbacks : List (String × CB)),
      (marshalArgs gen n callbacks args).processed.length = args.length := by
  intro args
  induction args with
  | nil =>
      intro n callbacks
      rfl
  | cons a rest ih =>
      intro n callbacks
      cases a with
      | value v => simpa [marshalArgs] using ih n callbacks
      | callback cb => simpa [marshalArgs] using ih (n + 1) (jinsert callbacks (gen n) cb)

/-- A plain value argument appears unchanged at its own position. -/
theorem marshalArgs_value_pos {CB : Type} (gen : Nat → String) :
    ∀ (args : List (ClientArg CB)) (n : Nat) (callbacks : List (String × CB))
      (i : Nat) (v : JValue),
      args[i]? = some (ClientArg.value v) →
      (marshalArgs gen n callbacks args).processed[i]? = some v := by
  intro args
  induction args with
  | nil =>
      intro n callbacks i v h
      simp at h
  | cons a rest ih =>
      intro n callbacks i v h
      cases i with
      | zero =>
          simp at h
          subst h
          simp [marshalArgs]
      | succ j =>
          simp at h
          cases a with
          | value w => simpa [marshalArgs] using ih n callbacks j v h
          | callback cb =>
              simpa [marshalArgs] using ih (n + 1) (jinsert callbacks (gen n) cb) j v h

/-- A callback argument appears at its own position as the prefixed token
string, the token is among the emitted tokens, and the updated registry maps
the token to that callback. -/
theorem marshalArgs_callback_pos {CB : Type} (gen : Nat → String)
    (hinj : Function.Injective gen) :
    ∀ (args : List (ClientArg CB)) (n : Nat) (callbacks : List (String × CB))
      (i : Nat) (cb : CB),
      args[i]? = some (ClientArg.callback cb) →
      ∃ t, (marshalArgs gen n callbacks args).processed[i]?
          = some (JValue.str (callbackMarker ++ t)) ∧
        t ∈ (marshalArgs gen n callbacks args).tokens ∧
        jlookup (marshalArgs gen n callbacks args).registry t = some cb := by
  intro args
  induction args with
  | nil =>
      intro n callbacks i cb h
      simp at h
  | cons a rest ih =>
      intro n callbacks i cb h
      cases i with
      | zero =>
          simp at h
          subst h
          refine ⟨gen n, by simp [marshalArgs], List.mem_cons_self _ _, ?_⟩
          have hpres := marshalArgs_registry_preserve gen rest (n + 1)
            (jinsert callbacks (gen n) cb) (gen n)
            (fun k hk heq => by have := hinj heq; omega)
          exact hpres.trans (jlookup_jinsert_self callbacks (gen n) cb)
      | succ j =>
          simp at h
          cases a with
          | value w =>
              obtain ⟨t, h1, h2, h3⟩ := ih n callbacks j cb h
              exact ⟨t, by simpa [marshalArgs] using h1, h2, h3⟩
          | callback cb2 =>
              obtain ⟨t, h1, h2, h3⟩ := ih (n + 1) (jinsert callbacks (gen n) cb2) j cb h
              exact ⟨t, by simpa [marshalArgs] using h1,
                List.mem_cons_of_mem _ h2, h3⟩

/-- The token list is empty exactly when no argument is a callback. -/
theorem marshalArgs_tokens_nil_iff {CB : Type} (gen : Nat → String) :
    ∀ (args : List (ClientArg CB)) (n : Nat) (callbacks : List (String × CB)),
      ((marshalArgs gen n callbacks args).tokens = []
        ↔ ∀ a ∈ args, ∀ cb : CB, a ≠ ClientArg.callback cb) := by
  intro args
  induction args with
  | nil =>
      intro n callbacks
      simp [marshalArgs]
  | cons a rest ih =>
      intro n callbacks
      cases a with
      | value v =>
          rw [show (marshalArgs gen n callbacks (ClientArg.value v :: rest)).tokens
              = (marshalArgs gen n callbacks rest).tokens from rfl, ih n callbacks]
          constructor
          · intro h b hb cb
            rcases List.mem_cons.mp hb with hb1 | hb2
            · subst hb1
              intro hc
              exact ClientArg.noConfusion hc
            · exact h b hb2 cb
          · intro h b hb cb
            exact h b (List.mem_cons_of_mem _ hb) cb
      | callback cb =>
          constructor
          · intro h
            exact List.noConfusion h
          · intro h
            exact absurd rfl (h _ (List.mem_cons_self _ _) cb)

/-- Field lookups on the payload built by Client::send_request for a call:
args and callbackIds are present exactly when non-empty, and id, type and
method carry the given values. -/
theorem buildRequestPayload_fields (rid mt m : String) (pa ids : List JValue) :
    (buildRequestPayload rid mt (some m) pa ids none none).get "args"
        = (if pa.isEmpty then none else some (JValue.arr pa)) ∧
    (buildRequestPayload rid mt (some m) pa ids none none).get "callbackIds"
        = (if ids.isEmpty then none else some (JValue.arr ids)) ∧
    (buildRequestPayload rid mt (some m) pa ids none none).get "id"
        = some (JValue.str rid) ∧
    (buildRequestPayload rid mt (some m) pa ids none none).get "type"
        = some (JValue.str mt) ∧
    (buildRequestPayload rid mt (some m) pa ids none none).get "method"
        = some (JValue.str m) := by
  by_cases hpa : pa.isEmpty <;> by_cases hids : ids.isEmpty <;>
    simp [buildRequestPayload, JValue.get, jlookup, hpa, hids]

/-- In the event trace of one send_request, every registry insert sits at a
strictly smaller index than the transport write. -/
theorem clientEvent_insert_before_write (ts : List String) (rid line0 : String)
    (i j : Nat) (lineW t : String)
    (hw : (ClientEvent.pendingInsert rid :: (ts.map ClientEvent.callbackInsert
        ++ [ClientEvent.transportWrite line0]))[i]?
      = some (ClientEvent.transportWrite lineW))
    (hc : (ClientEvent.pendingInsert rid :: (ts.map ClientEvent.callbackInsert
        ++ [ClientEvent.transportWrite line0]))[j]?
      = some (ClientEvent.callbackInsert t)) :
    j < i := by
  cases i with
  | zero =>
      rw [List.getElem?_cons_zero] at hw
      exact absurd (Option.some.inj hw) (by intro h; cases h)
  | succ k =>
      rw [List.getElem?_cons_succ] at hw
      cases j with
      | zero => omega
      | succ l =>
          rw [List.getElem?_cons_succ] at hc
          have hl : l < ts.length := by
            by_contra hge
            push_neg at hge
            rw [List.getElem?_append_right (by simpa using hge)] at hc
            rcases Nat.eq_or_lt_of_le hge with heq | hlt
            · rw [List.length_map, ← heq, Nat.sub_self] at hc
              rw [List.getElem?_cons_zero] at hc
              exact absurd (Option.some.inj hc) (by intro h; cases h)
            · rw [List.getElem?_eq_none (by simp; omega)] at hc
              cases hc
          have hk : k = ts.length := by
            rcases Nat.lt_or_ge k ts.length with hlt | hge
            · rw [List.getElem?_append_left (by simpa using hlt),
                List.getElem?_map] at hw
              rcases h2 : ts[k]? with _ | s
              · rw [h2] at hw
                cases hw
              · rw [h2] at hw
                exact absurd (Option.some.inj hw) (by intro h; cases h)
            · rcases Nat.eq_or_lt_of_le hge with heq | hlt2
              · omega
              · rw [List.getElem?_eq_none (by simp; omega)] at hw
                cases hw
          omega

/-- C7: a call marshals its arguments in order — plain values unchanged,
each function replaced by the CALLBACK_PREFIX followed by a fresh token,
tokens pairwise distinct — registers each function in the callback registry
under its token before the single transport write, and lists exactly the
emitted tokens in the callbackIds array of the payload, which is present exactly
when at least one function argument exists. -/
theorem C7_call_marshaling {CB : Type} (gen : Nat → String)
    (hinj : Function.Injective gen) (n : Nat) (callbacks : List (String × CB))
    (method : String) (args : List (ClientArg CB)) :
    (client_call gen n callbacks method args).1.processed.length = args.length ∧
    (∀ (i : Nat) (v : JValue), args[i]? = some (ClientArg.value v) →
        (client_call gen n callbacks method args).1.processed[i]? = some v) ∧
    (∀ (i : Nat) (cb : CB), args[i]? = some (ClientArg.callback cb) →
        ∃ t, (client_call gen n callbacks method args).1.processed[i]?
            = some (JValue.str (callbackMarker ++ t)) ∧
          t ∈ (client_call gen n callbacks method args).1.tokens ∧
          jlookup (client_call gen n callbacks method args).1.registry t = some cb) ∧
    (client_call gen n callbacks method args).1.tokens.Nodup ∧
    ((client_call gen n callbacks method args).1.tokens ≠ [] →
        (client_call gen n callbacks method args).2.1.get "callbackIds"
          = some (JValue.arr
              ((client_call gen n callbacks method args).1.tokens.map JValue.str))) ∧
    ((client_call gen n callbacks method args).1.processed ≠ [] →
        (client_call gen n callbacks method args).2.1.get "args"
          = some (JValue.arr (client_call gen n callbacks method args).1.processed)) ∧
    ((client_call gen n callbacks method args).1.tokens = []
        ↔ ∀ a ∈ args, ∀ cb : CB, a ≠ ClientArg.callback cb) ∧
    (∀ (i j : Nat) (lineW t : String),
        (client_call gen n callbacks method args).2.2[i]?
            = some (ClientEvent.transportWrite lineW) →
        (client_call gen n callbacks method args).2.2[j]?
            = some (ClientEvent.callbackInsert t) → j < i) := by
  refine ⟨marshalArgs_length gen args (n + 1) callbacks,
    fun i v h => marshalArgs_value_pos gen args (n + 1) callbacks i v h,
    fun i cb h => marshalArgs_callback_pos gen hinj args (n + 1) callbacks i cb h,
    marshalArgs_tokens_nodup gen hinj args (n + 1) callbacks,
    ?_, ?_,
    marshalArgs_tokens_nil_iff gen args (n + 1) callbacks, ?_⟩
  · intro hne
    show (buildRequestPayload (gen n) "request" (some method)
        (marshalArgs gen (n + 1) callbacks args).processed
        ((marshalArgs gen (n + 1) callbacks args).tokens.map JValue.str)
        none none).get "callbackIds"
      = some (JValue.arr ((marshalArgs gen (n + 1) callbacks args).tokens.map JValue.str))
    rw [(buildRequestPayload_fields (gen n) "request" method _ _).2.1]
    have hfalse : ((marshalArgs gen (n + 1) callbacks args).tokens.map
        JValue.str).isEmpty = false := by
      cases h : (marshalArgs gen (n + 1) callbacks args).tokens with
      | nil => exact absurd h hne
      | cons t ts => rfl
    simp [hfalse]
  · intro hne
    show (buildRequestPayload (gen n) "request" (some method)
        (marshalArgs gen (n + 1) callbacks args).processed
        ((marshalArgs gen (n + 1) callbacks args).tokens.map JValue.str)
        none none).get "args"
      = some (JValue.arr (marshalArgs gen (n + 1) callbacks args).processed)
    rw [(buildRequestPayload_fields (gen n) "request" method _ _).1]
    have hfalse : ((marshalArgs gen (n + 1) callbacks args).processed).isEmpty = false := by
      cases h : (marshalArgs gen (n + 1) callbacks args).processed with
      | nil => exact absurd h hne
      | cons p ps => rfl
    simp [hfalse]
  · intro i j lineW t hw hc
    exact clientEvent_insert_before_write
      (marshalArgs gen (n + 1) callbacks args).tokens (gen n)
      ((buildRequestPayload (gen n) "request" (some method)
        (marshalArgs gen (n + 1) callbacks args).processed
        ((marshalArgs gen (n + 1) callbacks args).tokens.map JValue.str)
        none none).render ++ "\n") i j lineW t hw hc

/-- C7 witness: a call with one plain value and one callback argument under
an injective id supply. -/
theorem C7_witness :
    (client_call (fun k => String.mk (List.replicate k 'a')) 0
        ([] : List (String × Nat)) "m"
        [ClientArg.value (JValue.num 1), ClientArg.callback 7]).1.tokens.Nodup ∧
    (client_call (fun k => String.mk (List.replicate k 'a')) 0
        ([] : List (String × Nat)) "m"
        [ClientArg.value (JValue.num 1), ClientArg.callback 7]).2.1.get "callbackIds"
      = some (JValue.arr
          ((client_call (fun k => String.mk (List.replicate k 'a')) 0
            ([] : List (String × Nat)) "m"
            [ClientArg.value (JValue.num 1),
              ClientArg.callback 7]).1.tokens.map JValue.str)) :=
  have hinj : Function.Injective (fun k => String.mk (List.replicate k 'a')) := by
    intro a b h
    simpa using congrArg (fun s => s.data.length) h
  ⟨(C7_call_marshaling (fun k => String.mk (List.replicate k 'a')) hinj 0 []
      "m" [ClientArg.value (JValue.num 1), ClientArg.callback 7]).2.2.2.1,
   (C7_call_marshaling (fun k => String.mk (List.replicate k 'a')) hinj 0 []
      "m" [ClientArg.value (JValue.num 1), ClientArg.callback 7]).2.2.2.2.1
    (by decide)⟩
